import Mathlib

/-!
Verification of the SoloSafe application core (`app.py`).

The Python source is shallowly embedded: strings are Lean `String`s
(operated on through their `List Char` contents), Python `None` becomes
`Option.none`, the SQLite database becomes an explicit state record, and
each operation becomes a pure Lean function translated line by line from
the source.  Python's ASCII-relevant `str.strip`/`str.title`/`str.lower`
behavior is modelled at the character level.
-/

namespace SoloSafe

/-! ### Character-level model of Python / SQL string primitives -/

/-- Python whitespace test restricted to the ASCII whitespace characters
(space, tab, newline, carriage return, vertical tab, form feed). -/
def isPySpace (c : Char) : Bool :=
  decide (c.toNat = 32 ∨ c.toNat = 9 ∨ c.toNat = 10 ∨ c.toNat = 13 ∨
    c.toNat = 11 ∨ c.toNat = 12)

/-- A character is cased (participates in `str.title` word detection)
iff it is an ASCII letter. -/
def isCased (c : Char) : Bool :=
  decide ((65 ≤ c.toNat ∧ c.toNat ≤ 90) ∨ (97 ≤ c.toNat ∧ c.toNat ≤ 122))

/-- ASCII uppercasing of one character (as CPython does for ASCII). -/
def pyUpperChar (c : Char) : Char :=
  if 97 ≤ c.toNat ∧ c.toNat ≤ 122 then Char.ofNat (c.toNat - 32) else c

/-- ASCII lowercasing of one character (as CPython and SQLite `lower`
do for ASCII). -/
def pyLowerChar (c : Char) : Char :=
  if 65 ≤ c.toNat ∧ c.toNat ≤ 90 then Char.ofNat (c.toNat + 32) else c

/-- `str.strip` on the character list: drop whitespace from both ends. -/
def pyStripList (l : List Char) : List Char :=
  ((l.dropWhile isPySpace).reverse.dropWhile isPySpace).reverse

/-- `str.title` on the character list: CPython uppercases a character not
preceded by a cased character and lowercases one that is; the flag carries
whether the previous original character was cased. -/
def pyTitleAux : Bool → List Char → List Char
  | _, [] => []
  | prev, c :: cs =>
    (if prev then pyLowerChar c else pyUpperChar c) :: pyTitleAux (isCased c) cs

/-- `str.lower` on the character list (ASCII). -/
def pyLowerList (l : List Char) : List Char := l.map pyLowerChar

/-- Python `str.strip()`. -/
def pyStrip (s : String) : String := ⟨pyStripList s.data⟩

/-- Python `str.title()`. -/
def pyTitle (s : String) : String := ⟨pyTitleAux false s.data⟩

/-- Python `str.lower()` / SQLite `lower()` (ASCII). -/
def pyLower (s : String) : String := ⟨pyLowerList s.data⟩

/-! ### `normalize_location` (app.py lines 76–83) -/

/-- Translation of `normalize_location(country, city, neighborhood)`.
`neighborhood` is `str | None` in Python, so it is an `Option String`
here; Python's `if neighborhood:` truthiness test is false for both
`None` and the empty string, which the match below reproduces. -/
def normalize_location (country city : String) (neighborhood : Option String) :
    String × String × Option String :=
  let country := pyTitle (pyStrip country)
  let city := pyTitle (pyStrip city)
  let neighborhood :=
    match neighborhood with
    | none => none
    | some s =>
      if s = "" then some s
      else
        let n := pyTitle (pyStrip s)
        if n = "" then none else some n
  (country, city, neighborhood)

example : normalize_location " spain " " barcelona" (some "") =
    ("Spain", "Barcelona", some "") := by decide

example : normalize_location "MEXICO" "mexico city" (some "  ") =
    ("Mexico", "Mexico City", none) := by decide

/-! ### Data model (app.py lines 29–56)

`Location` and `SafetyReport` rows.  SQLite assigns integer primary keys
`1, 2, …` in insertion order and neither table is ever deleted from, so a
fresh row's `id` is the current row count plus one.  A nullable SQL column
of strings is an `Option String`; note that the empty string `some ""` is
a value distinct from SQL `NULL` (`none`), exactly as in SQLite. -/

structure Location where
  id : Nat
  country : String
  city : String
  neighborhood : Option String
  deriving DecidableEq, Repr

structure SafetyReport where
  id : Nat
  location_id : Nat
  safety_score : Int
  title : String
  body : String
  tags : String
  author_initials : Option String
  deriving DecidableEq, Repr

/-- The persistent database state: the two tables, in rowid order. -/
structure DB where
  locations : List Location
  reports : List SafetyReport
  deriving DecidableEq, Repr

def emptyDB : DB := ⟨[], []⟩

/-! ### SQL `LIKE` (SQLite semantics, ASCII case-insensitive) -/

/-- SQLite `LIKE` pattern matching: `%` matches any (possibly empty)
sequence, `_` matches exactly one character, anything else matches
itself.  Both sides are compared after ASCII lowering by the caller. -/
def likeMatch : List Char → List Char → Bool
  | [], ts => ts.isEmpty
  | p :: ps, ts =>
    if p = '%' then ts.tails.any (fun ts' => likeMatch ps ts')
    else
      match ts with
      | [] => false
      | t :: ts' => (p == '_' || p == t) && likeMatch ps ts'

/-- SQLAlchemy `column.ilike(pattern)` on SQLite: ASCII-case-insensitive
`LIKE`. -/
def ilike (text pattern : String) : Bool :=
  likeMatch (pyLowerList pattern.data) (pyLowerList text.data)

/-! ### `get_or_create_location` (app.py lines 86–107) -/

/-- The filter built by `get_or_create_location` after normalization:
equality on `country` and `city`, then — mirroring Python's
`if neighborhood:` truthiness — an `ilike '%…%'` containment test on the
stored neighborhood when a non-empty neighborhood was requested, and an
SQL `IS NULL` test otherwise.  `ilike` on a `NULL` column matches
nothing, and `IS NULL` rejects a stored empty string. -/
def locationFilter (country city : String) (neighborhood : Option String)
    (l : Location) : Bool :=
  l.country == country && l.city == city &&
    (match neighborhood with
     | some n =>
       if n = "" then decide (l.neighborhood = none)
       else
         match l.neighborhood with
         | some stored => ilike stored ("%" ++ n ++ "%")
         | none => false
     | none => decide (l.neighborhood = none))

/-- Translation of `get_or_create_location(db, country, city,
neighborhood)`: normalize, take the first matching row in rowid order
(`query.first()`), and otherwise insert a new row whose id is assigned
immediately (`db.flush()`), returning the row and the updated state. -/
def get_or_create_location (db : DB) (country city : String)
    (neighborhood : Option String) : Location × DB :=
  let n := normalize_location country city neighborhood
  match db.locations.find? (locationFilter n.1 n.2.1 n.2.2) with
  | some loc => (loc, db)
  | none =>
    let loc : Location := ⟨db.locations.length + 1, n.1, n.2.1, n.2.2⟩
    (loc, { db with locations := db.locations ++ [loc] })

-- Empty-string neighborhood: first call stores `some ""`, second call
-- filters `IS NULL`, misses it, and inserts a duplicate row.
example :
    (let r1 := get_or_create_location emptyDB "Spain" "Barcelona" (some "")
     let r2 := get_or_create_location r1.2 "Spain" "Barcelona" (some "")
     r1.1.id = 1 ∧ r2.1.id = 2 ∧ r2.2.locations.length = 2) := by decide

-- Wildcard `_` in a requested neighborhood matches an existing row that
-- does not contain it as a substring.
example :
    (let db : DB := ⟨[⟨1, "Spain", "Barcelona", some "Raval"⟩], []⟩
     let r := get_or_create_location db "Spain" "Barcelona" (some "r_val")
     r.1.id = 1 ∧ r.2 = db) := by decide

-- Plain idempotency on a named neighborhood.
example :
    (let r1 := get_or_create_location emptyDB "Spain" "Barcelona" (some "El Raval")
     let r2 := get_or_create_location r1.2 "Spain" "Barcelona" (some "El Raval")
     r1.1.id = 1 ∧ r2.1.id = 1 ∧ r2.2.locations.length = 1) := by decide

/-! ### Report insertion and seeding (app.py lines 113–158) -/

/-- `db.add(SafetyReport(...))`: append one report row; SQLite assigns
the next integer id. -/
def addReportRow (db : DB) (location_id : Nat) (safety_score : Int)
    (title body tags : String) (author_initials : Option String) : DB :=
  { db with
      reports := db.reports ++
        [⟨db.reports.length + 1, location_id, safety_score, title, body, tags,
          author_initials⟩] }

/-- Translation of `seed_example_reports()`: a no-op when any report
exists, otherwise resolve each example's location and append its report,
in source order. -/
def seed_example_reports (db : DB) : DB :=
  if db.reports.length > 0 then db
  else
    let r1 := get_or_create_location db "Spain" "Barcelona" (some "El Raval")
    let db1 := addReportRow r1.2 r1.1.id 2 "Felt uneasy walking at night"
      "Lots of catcalling around 10–11pm. Stick to main streets."
      "harassment,night_transit" (some "K.A.")
    let r2 := get_or_create_location db1 "Japan" "Tokyo" (some "Shinjuku")
    let db2 := addReportRow r2.2 r2.1.id 5 "Extremely safe even late at night"
      "Walked home alone at 1am, zero issues. Very well lit."
      "night_transit,other" (some "S.M.")
    let r3 := get_or_create_location db2 "Mexico" "Mexico City" (some "Condesa")
    addReportRow r3.2 r3.1.id 4 "Generally safe but watch for scams"
      "Felt fine walking daytime. Some taxi scams reported."
      "scams,other" (some "L.T.")

/-! ### Session manager `get_db` (app.py lines 60–70) -/

/-- What the `get_db` context manager does to the session at exit. -/
inductive SessionEvent where
  | commit
  | rollback
  | close
  deriving DecidableEq, Repr

/-- Translation of the `get_db` context manager run around a body.  The
body either completes normally with a new database state or raises an
exception `e`; `get_db` commits in the first case, rolls back (leaving
the persisted state unchanged) and re-raises in the second, and closes
the session in both (`finally`).  Returned: the propagated outcome, the
persisted state after the call, and the session events in order. -/
def get_db {E : Type} (body : DB → Except E DB) (db : DB) :
    Except E DB × DB × List SessionEvent :=
  match body db with
  | .ok db' => (.ok db', db', [.commit, .close])
  | .error e => (.error e, db, [.rollback, .close])

/-! ### Dashboard analytics (app.py lines 177–221) -/

/-- `db.query(SafetyReport).join(Location).all()`: each report paired
with its location; an inner join drops reports with a dangling
`location_id`. -/
def joinedReports (db : DB) : List (SafetyReport × Location) :=
  db.reports.filterMap fun r =>
    (db.locations.find? fun l => l.id == r.location_id).map fun l => (r, l)

/-- `avg_score = sum(...) / len(reports)` guarded by `if reports:`
(lines 183–185 and 220–221); Python float arithmetic on these small
integers is exact, modelled in `ℚ`. -/
def global_avg (db : DB) : Option ℚ :=
  let reports := joinedReports db
  if reports.isEmpty then none
  else some ((reports.map fun rl => (rl.1.safety_score : ℚ)).sum / reports.length)

/-- `tag_counts[t] = tag_counts.get(t, 0) + 1` on a Python dict: update
in place if the key exists, else append a new entry (dicts preserve
insertion order). -/
def bumpTag : List (String × Nat) → String → List (String × Nat)
  | [], t => [(t, 1)]
  | (k, v) :: rest, t =>
    if k = t then (k, v + 1) :: rest else (k, v) :: bumpTag rest t

/-- Python `s.split(",")`: split at every comma, keeping empty pieces;
`"".split(",") == [""]`. -/
def splitCommaList : List Char → List (List Char)
  | [] => [[]]
  | c :: cs =>
    if c = ',' then [] :: splitCommaList cs
    else
      match splitCommaList cs with
      | [] => [[c]]
      | g :: gs => (c :: g) :: gs

/-- The tags one report contributes: `if r.tags:` skips a falsy (empty)
tags string, otherwise `r.tags.split(",")` with each piece stripped. -/
def reportTags (tags : String) : List String :=
  if tags = "" then []
  else (splitCommaList tags.data).map fun g => pyStrip ⟨g⟩

/-- The dashboard tag histogram (lines 188–193). -/
def tag_counts (db : DB) : List (String × Nat) :=
  (joinedReports db).foldl
    (fun counts rl => (reportTags rl.1.tags).foldl bumpTag counts) []

/-- Histogram lookup: the count stored for a tag, `0` when absent
(first entry wins, as in a dict where keys are unique). -/
def countOf : List (String × Nat) → String → Nat
  | [], _ => 0
  | (k, v) :: rest, t => if k = t then v else countOf rest t

/-- `loc_scores.setdefault(loc, []).append(r.safety_score)`: the scores
grouped by label, labels in first-appearance order, scores in scan
order. -/
def appendScore : List (String × List Int) → String → Int → List (String × List Int)
  | [], label, s => [(label, [s])]
  | (k, v) :: rest, label, s =>
    if k = label then (k, v ++ [s]) :: rest else (k, v) :: appendScore rest label s

/-- The grouping loop of lines 208–211, with the f-string label
`f"{r.location.city}, {r.location.country}"`. -/
def loc_scores (reports : List (SafetyReport × Location)) : List (String × List Int) :=
  reports.foldl
    (fun acc rl => appendScore acc (rl.2.city ++ ", " ++ rl.2.country) rl.1.safety_score)
    []

/-- `sum(scores)/len(scores)` in `ℚ`. -/
def meanScore (scores : List Int) : ℚ :=
  (scores.map fun s => (s : ℚ)).sum / scores.length

/-- Lines 213–216: `sorted(..., key=lambda x: x[1])[:5]` — Python's sort
is stable and keyed on the mean only, so ties keep dict insertion
order; `List.mergeSort` is the same stable sort. -/
def risk_ranking (db : DB) : List (String × ℚ) :=
  (((loc_scores (joinedReports db)).map fun kv => (kv.1, meanScore kv.2)).mergeSort
      fun a b => a.2 ≤ b.2).take 5

/-! ### The search tab's location predicate (app.py lines 248–249)

The search query filters `Location.country.ilike(f"%{country.strip().title()}%")`
— a case-insensitive substring test, unlike the equality used by
`get_or_create_location`. -/

def search_country_filter (country : String) (l : Location) : Bool :=
  ilike l.country ("%" ++ pyTitle (pyStrip country) ++ "%")

example :
    (let loc : Location := ⟨1, "New Spain", "Barcelona", none⟩
     search_country_filter "Spain" loc = true ∧
       locationFilter "Spain" "Barcelona" none loc = false) := by decide

/-! ### Claim-side (specification) definitions, for comparison -/

/-- Case-insensitive substring containment — the neighborhood matching
policy the specification describes. -/
def containsCI (stored requested : String) : Bool :=
  decide ((pyLowerList requested.data) <:+: (pyLowerList stored.data))

/-- A string free of the SQL `LIKE` wildcard characters `%` and `_`. -/
def noWildcard (s : String) : Bool :=
  s.data.all fun c => !(c == '%') && !(c == '_')

/-- The location-matching predicate as the specification words it:
exact country and city, and case-insensitive substring containment on a
supplied neighborhood. -/
def locationFilterSubstr (country city : String) (neighborhood : Option String)
    (l : Location) : Bool :=
  l.country == country && l.city == city &&
    (match neighborhood with
     | some n =>
       if n = "" then decide (l.neighborhood = none)
       else
         match l.neighborhood with
         | some stored => containsCI stored n
         | none => false
     | none => decide (l.neighborhood = none))

/-- `resolve_or_create` as the specification describes it: first row (in
stable order) matching under the substring containment policy, else a
fresh row. -/
def get_or_create_location_substr (db : DB) (country city : String)
    (neighborhood : Option String) : Location × DB :=
  let n := normalize_location country city neighborhood
  match db.locations.find? (locationFilterSubstr n.1 n.2.1 n.2.2) with
  | some loc => (loc, db)
  | none =>
    let loc : Location := ⟨db.locations.length + 1, n.1, n.2.1, n.2.2⟩
    (loc, { db with locations := db.locations ++ [loc] })

/-- Ordered insertion under the specification's ranking order:
ascending mean, ties by lexical label order (lexicographic order of the
labels' character sequences). -/
def insertRanked (x : String × ℚ) : List (String × ℚ) → List (String × ℚ)
  | [] => [x]
  | y :: ys =>
    if x.2 < y.2 ∨ (x.2 = y.2 ∧ x.1.data < y.1.data) then x :: y :: ys
    else y :: insertRanked x ys

/-- The risk ranking as the claim words it: same grouping and means,
but ties between equal means broken by lexical label order. -/
def risk_ranking_lexical (db : DB) : List (String × ℚ) :=
  (((loc_scores (joinedReports db)).map fun kv => (kv.1, meanScore kv.2)).foldr
      insertRanked []).take 5

/-! ### Reachable database states (for the score-range invariant)

The application writes reports in two places: `seed_example_reports`
at startup, and the add-report tab.  The add-report tab lies beyond the
end of the available source, so its score input is modelled from the
spec. -/

/-- Modelled from the spec: the add-report tab (not present in the
source file) resolves the location and appends one report inside one
`get_db` transaction; per §6 the submitted `safety_score` is an
"integer 1–5 (default 3)" coming from the bounded form control. -/
def submit_report (db : DB) (country city : String) (neighborhood : Option String)
    (score : Int) (title body tags : String) (initials : Option String) : DB :=
  let r := get_or_create_location db country city neighborhood
  addReportRow r.2 r.1.id score title body tags initials

/-- One application write operation.  Read-only operations (search,
dashboard) do not change the database and need no step.  The score
bound on `submit` is the §6 input contract for the form control. -/
inductive Step : DB → DB → Prop
  | seed (db : DB) : Step db (seed_example_reports db)
  | submit (db : DB) (country city : String) (nb : Option String) (score : Int)
      (title body tags : String) (initials : Option String)
      (hscore : 1 ≤ score ∧ score ≤ 5) :
      Step db (submit_report db country city nb score title body tags initials)

/-- Database states reachable from the empty database. -/
def Reachable (db : DB) : Prop := Relation.ReflTransGen Step emptyDB db

/-! ### Small helper definitions used by the theorems -/

/-- The scores recorded for a label in the grouped association list
(`[]` when the label is absent; first entry wins, as in a dict where
keys are unique). -/
def groupVal : List (String × List Int) → String → List Int
  | [], _ => []
  | (k, v) :: rest, lab => if k = lab then v else groupVal rest lab

/-- The dashboard's grouping label of one joined report row. -/
def reportLabel (rl : SafetyReport × Location) : String :=
  rl.2.city ++ ", " ++ rl.2.country

/-- A database with two equal-mean locations whose first-appearance
order disagrees with lexical label order. -/
def tieDB : DB :=
  ⟨[⟨1, "Switzerland", "Zurich", none⟩, ⟨2, "Netherlands", "Amsterdam", none⟩],
    [⟨1, 1, 3, "t1", "b1", "", none⟩, ⟨2, 2, 3, "t2", "b2", "", none⟩]⟩

/-- A database with six single-report location groups of means
`1, 2, 3, 4, 5, 5` in scan order: the risk ranking keeps the five
lowest-mean groups and cuts the sixth (`F, X`, tied at mean 5 with
`E, X` but appearing later). -/
def sixDB : DB :=
  ⟨[⟨1, "X", "A", none⟩, ⟨2, "X", "B", none⟩, ⟨3, "X", "C", none⟩,
      ⟨4, "X", "D", none⟩, ⟨5, "X", "E", none⟩, ⟨6, "X", "F", none⟩],
    [⟨1, 1, 1, "t", "b", "", none⟩, ⟨2, 2, 2, "t", "b", "", none⟩,
      ⟨3, 3, 3, "t", "b", "", none⟩, ⟨4, 4, 4, "t", "b", "", none⟩,
      ⟨5, 5, 5, "t", "b", "", none⟩, ⟨6, 6, 5, "t", "b", "", none⟩]⟩

/-- A database holding the two reports of the tag-histogram example:
tags `harassment,night_transit` and `harassment`. -/
def tagToyDB : DB :=
  ⟨[⟨1, "Spain", "Barcelona", some "El Raval"⟩],
    [⟨1, 1, 2, "t1", "b1", "harassment,night_transit", none⟩,
      ⟨2, 1, 3, "t2", "b2", "harassment", none⟩]⟩

/-! ## Character-level lemmas -/

theorem toNat_ofNat_valid (n : Nat) (h : n.isValidChar) : (Char.ofNat n).toNat = n := by
  rw [Char.ofNat, dif_pos h]
  rfl

theorem char_eq_of_toNat_eq {c d : Char} (h : c.toNat = d.toNat) : c = d := by
  have h2 := congrArg Char.ofNat h
  rwa [Char.ofNat_toNat, Char.ofNat_toNat] at h2

theorem toNat_pyUpperChar (c : Char) :
    (pyUpperChar c).toNat =
      if 97 ≤ c.toNat ∧ c.toNat ≤ 122 then c.toNat - 32 else c.toNat := by
  by_cases h : 97 ≤ c.toNat ∧ c.toNat ≤ 122
  · simp only [pyUpperChar, if_pos h]
    exact toNat_ofNat_valid _ (Or.inl (by omega))
  · simp only [pyUpperChar, if_neg h]

theorem toNat_pyLowerChar (c : Char) :
    (pyLowerChar c).toNat =
      if 65 ≤ c.toNat ∧ c.toNat ≤ 90 then c.toNat + 32 else c.toNat := by
  by_cases h : 65 ≤ c.toNat ∧ c.toNat ≤ 90
  · simp only [pyLowerChar, if_pos h]
    exact toNat_ofNat_valid _ (Or.inl (by omega))
  · simp only [pyLowerChar, if_neg h]

theorem isCased_pyUpperChar (c : Char) : isCased (pyUpperChar c) = isCased c := by
  simp only [isCased, toNat_pyUpperChar]
  rw [decide_eq_decide]
  split_ifs <;> omega

theorem isCased_pyLowerChar (c : Char) : isCased (pyLowerChar c) = isCased c := by
  simp only [isCased, toNat_pyLowerChar]
  rw [decide_eq_decide]
  split_ifs <;> omega

theorem isPySpace_pyUpperChar (c : Char) : isPySpace (pyUpperChar c) = isPySpace c := by
  simp only [isPySpace, toNat_pyUpperChar]
  rw [decide_eq_decide]
  split_ifs <;> omega

theorem isPySpace_pyLowerChar (c : Char) : isPySpace (pyLowerChar c) = isPySpace c := by
  simp only [isPySpace, toNat_pyLowerChar]
  rw [decide_eq_decide]
  split_ifs <;> omega

theorem pyUpperChar_pyUpperChar (c : Char) :
    pyUpperChar (pyUpperChar c) = pyUpperChar c := by
  apply char_eq_of_toNat_eq
  simp only [toNat_pyUpperChar]
  split_ifs <;> omega

theorem pyLowerChar_pyLowerChar (c : Char) :
    pyLowerChar (pyLowerChar c) = pyLowerChar c := by
  apply char_eq_of_toNat_eq
  simp only [toNat_pyLowerChar]
  split_ifs <;> omega

/-! ## `str.title` lemmas -/

theorem pyTitleAux_pyTitleAux (l : List Char) (b : Bool) :
    pyTitleAux b (pyTitleAux b l) = pyTitleAux b l := by
  induction l generalizing b with
  | nil => rfl
  | cons c cs ih =>
    cases b <;>
      simp [pyTitleAux, pyUpperChar_pyUpperChar, pyLowerChar_pyLowerChar,
        isCased_pyUpperChar, isCased_pyLowerChar, ih]

theorem map_isPySpace_pyTitleAux (l : List Char) (b : Bool) :
    (pyTitleAux b l).map isPySpace = l.map isPySpace := by
  induction l generalizing b with
  | nil => rfl
  | cons c cs ih =>
    cases b <;>
      simp [pyTitleAux, isPySpace_pyUpperChar, isPySpace_pyLowerChar, ih]

/-! ## `str.strip` lemmas -/

theorem dropWhile_head?_not {α : Type} (q : α → Bool) (l : List α) :
    ∀ a, (l.dropWhile q).head? = some a → q a = false := by
  induction l with
  | nil => intro a h; simp [List.dropWhile] at h
  | cons c cs ih =>
    intro a h
    by_cases hc : q c
    · rw [List.dropWhile_cons_of_pos hc] at h
      exact ih a h
    · rw [List.dropWhile_cons_of_neg hc] at h
      cases h
      simpa using hc

theorem dropWhile_eq_self_of_head? {α : Type} (q : α → Bool) (l : List α)
    (h : ∀ a, l.head? = some a → q a = false) : l.dropWhile q = l := by
  cases l with
  | nil => rfl
  | cons c cs =>
    have hc := h c rfl
    rw [List.dropWhile_cons_of_neg (by simp [hc])]

theorem getLast?_dropWhile {α : Type} (q : α → Bool) (l : List α) :
    ∀ a, (l.dropWhile q).getLast? = some a → l.getLast? = some a := by
  induction l with
  | nil => intro a h; simp [List.dropWhile] at h
  | cons c cs ih =>
    intro a h
    by_cases hc : q c
    · rw [List.dropWhile_cons_of_pos hc] at h
      have h2 := ih a h
      rw [List.getLast?_cons, h2]
      rfl
    · rwa [List.dropWhile_cons_of_neg hc] at h

theorem pyStripList_head?_not (l : List Char) :
    ∀ a, (pyStripList l).head? = some a → isPySpace a = false := by
  intro a h
  unfold pyStripList at h
  rw [List.head?_reverse] at h
  have h2 := getLast?_dropWhile isPySpace _ _ h
  rw [List.getLast?_reverse] at h2
  exact dropWhile_head?_not isPySpace _ _ h2

theorem pyStripList_getLast?_not (l : List Char) :
    ∀ a, (pyStripList l).getLast? = some a → isPySpace a = false := by
  intro a h
  unfold pyStripList at h
  rw [List.getLast?_reverse] at h
  exact dropWhile_head?_not isPySpace _ _ h

theorem pyStripList_eq_self (l : List Char)
    (h1 : ∀ a, l.head? = some a → isPySpace a = false)
    (h2 : ∀ a, l.getLast? = some a → isPySpace a = false) :
    pyStripList l = l := by
  unfold pyStripList
  rw [dropWhile_eq_self_of_head? _ _ h1]
  rw [dropWhile_eq_self_of_head? _ _ (fun a ha => h2 a (by rwa [List.head?_reverse] at ha))]
  exact List.reverse_reverse l

theorem pyStripList_idem (l : List Char) :
    pyStripList (pyStripList l) = pyStripList l :=
  pyStripList_eq_self _ (pyStripList_head?_not l) (pyStripList_getLast?_not l)

theorem pyTitleAux_head?_not (l : List Char) (b : Bool)
    (h : ∀ a, l.head? = some a → isPySpace a = false) :
    ∀ a, (pyTitleAux b l).head? = some a → isPySpace a = false := by
  intro a ha
  cases l with
  | nil => simp [pyTitleAux] at ha
  | cons c cs =>
    simp only [pyTitleAux, List.head?_cons, Option.some.injEq] at ha
    have hc := h c rfl
    subst ha
    cases b with
    | false => simpa [isPySpace_pyUpperChar] using hc
    | true => simpa [isPySpace_pyLowerChar] using hc

theorem pyTitleAux_getLast?_not (l : List Char) (b : Bool)
    (h : ∀ a, l.getLast? = some a → isPySpace a = false) :
    ∀ a, (pyTitleAux b l).getLast? = some a → isPySpace a = false := by
  intro a ha
  have hm := map_isPySpace_pyTitleAux l b
  have h1 : (List.map isPySpace (pyTitleAux b l)).getLast? = some (isPySpace a) := by
    rw [List.getLast?_map, ha]
    rfl
  rw [hm, List.getLast?_map] at h1
  cases hl : l.getLast? with
  | none => rw [hl] at h1; simp at h1
  | some a' =>
    rw [hl] at h1
    simp only [Option.map_some', Option.some.injEq] at h1
    rw [← h1]
    exact h a' hl

theorem stripTitle_fix (l : List Char) :
    pyStripList (pyTitleAux false (pyStripList l)) = pyTitleAux false (pyStripList l) :=
  pyStripList_eq_self _
    (pyTitleAux_head?_not _ _ (pyStripList_head?_not l))
    (pyTitleAux_getLast?_not _ _ (pyStripList_getLast?_not l))

/-- `s.strip().title()` is a fixed point of itself. -/
theorem stripTitle_idem (s : String) :
    pyTitle (pyStrip (pyTitle (pyStrip s))) = pyTitle (pyStrip s) := by
  show (⟨pyTitleAux false (pyStripList (pyTitleAux false (pyStripList s.data)))⟩ : String) =
    ⟨pyTitleAux false (pyStripList s.data)⟩
  rw [stripTitle_fix, pyTitleAux_pyTitleAux]

/-! ## Claim theorems -/

/-- C9: `normalize_location` is idempotent — applied to its own output
(for any country and city strings and any, possibly null, neighborhood)
it returns that output unchanged. -/
theorem C9_normalize_location_idempotent
    (country city : String) (neighborhood : Option String) :
    normalize_location (normalize_location country city neighborhood).1
      (normalize_location country city neighborhood).2.1
      (normalize_location country city neighborhood).2.2 =
      normalize_location country city neighborhood := by
  simp only [normalize_location, Prod.mk.injEq]
  refine ⟨stripTitle_idem country, stripTitle_idem city, ?_⟩
  cases neighborhood with
  | none => rfl
  | some s =>
    by_cases hs : s = ""
    · simp [hs]
    · by_cases hn : pyTitle (pyStrip s) = ""
      · simp [hs, hn]
      · simp [hs, hn, stripTitle_idem s]

/-- C3 (code bug): `normalize_location` trims and title-cases country
and city, but an exactly-empty neighborhood string is *not* collapsed to
`None`: Python's `if neighborhood:` skips the falsy empty string, so
`normalize(" spain ", " barcelona", "")` returns `("Spain", "Barcelona",
"")` — the empty string, not `None` as the specification states (only a
whitespace-only neighborhood such as `"  "` is collapsed to `None`). -/
theorem C3_normalize_empty_neighborhood_bug :
    normalize_location " spain " " barcelona" (some "") =
        ("Spain", "Barcelona", some "") ∧
      some "" ≠ (none : Option String) ∧
      normalize_location " spain " " barcelona" (some "  ") =
        ("Spain", "Barcelona", none) := by
  refine ⟨by decide, by decide, by decide⟩

/-- C2 (code bug): `get_or_create_location` is not idempotent at an
empty-string neighborhood.  Starting from the empty database, the first
call stores a `Location` row whose `neighborhood` column holds the empty
string `''`, and the second identical call — whose lookup filters
`neighborhood IS NULL` and therefore misses that row — inserts a second
`Location` with a different id. -/
theorem C2_resolve_empty_neighborhood_not_idempotent :
    (get_or_create_location emptyDB "Spain" "Barcelona" (some "")).1.id = 1 ∧
      (get_or_create_location
        (get_or_create_location emptyDB "Spain" "Barcelona" (some "")).2
        "Spain" "Barcelona" (some "")).1.id = 2 ∧
      (get_or_create_location
        (get_or_create_location emptyDB "Spain" "Barcelona" (some "")).2
        "Spain" "Barcelona" (some "")).2.locations =
        [⟨1, "Spain", "Barcelona", some ""⟩, ⟨2, "Spain", "Barcelona", some ""⟩] := by
  refine ⟨by decide, by decide, by decide⟩

/-- C1 (code bug): the search tab filters locations with
`Location.country.ilike('%…%')` — case-insensitive substring containment
— while `get_or_create_location` matches `Location.country` by equality,
so the two paths do not share one location-matching predicate: for the
normalized input country `"Spain"`, a stored row with country
`"New Spain"` is matched by the search filter but can never be matched
by the resolver's filter, whatever its city or neighborhood. -/
theorem C1_search_and_resolve_policies_differ :
    search_country_filter "Spain" ⟨1, "New Spain", "Barcelona", none⟩ = true ∧
      locationFilter "Spain" "Barcelona" none ⟨1, "New Spain", "Barcelona", none⟩ = false ∧
      (normalize_location "Spain" "Barcelona" none).1 = "Spain" := by
  refine ⟨by decide, by decide, by decide⟩

/-- C7: every operation body wrapped by `get_db` runs in one scoped
session: when the body completes normally its result state is committed
and becomes the persisted state; when the body raises, the exception
propagates, the persisted state is unchanged (rollback); and in both
cases the session is closed last. -/
theorem C7_get_db_commit_rollback_close {E : Type} (body : DB → Except E DB) (db : DB) :
    ((get_db body db).2.2.getLast? = some SessionEvent.close) ∧
      (∀ db', body db = .ok db' →
        get_db body db = (.ok db', db', [SessionEvent.commit, SessionEvent.close])) ∧
      (∀ e, body db = .error e →
        get_db body db = (.error e, db, [SessionEvent.rollback, SessionEvent.close])) := by
  refine ⟨?_, ?_, ?_⟩
  · cases h : body db <;> simp [get_db, h]
  · intro db' h
    simp [get_db, h]
  · intro e h
    simp [get_db, h]

/-- Witness for C7 at a concrete committing body and a concrete raising
body over the empty database. -/
theorem C7_witness :
    get_db (fun db => (Except.ok (addReportRow db 1 3 "t" "b" "" none) : Except Unit DB)) emptyDB =
        (.ok (addReportRow emptyDB 1 3 "t" "b" "" none),
          addReportRow emptyDB 1 3 "t" "b" "" none,
          [SessionEvent.commit, SessionEvent.close]) ∧
      get_db (fun _ => (Except.error () : Except Unit DB)) emptyDB =
        (.error (), emptyDB, [SessionEvent.rollback, SessionEvent.close]) :=
  ⟨(C7_get_db_commit_rollback_close _ emptyDB).2.1 _ rfl,
    (C7_get_db_commit_rollback_close _ emptyDB).2.2 () rfl⟩

/-- C5: the dashboard's global average is the exact arithmetic mean of
all stored reports' scores: `global_avg` is `none` exactly when no
report exists (the zero-report branch, no division), and any produced
value `q` satisfies `q * count = sum of scores`. -/
theorem C5_global_avg_mean (db : DB) :
    (global_avg db = none ↔ joinedReports db = []) ∧
      ∀ q, global_avg db = some q →
        q * ((joinedReports db).length : ℚ) =
          ((joinedReports db).map fun rl => (rl.1.safety_score : ℚ)).sum := by
  constructor
  · by_cases h : (joinedReports db).isEmpty
    · simp [global_avg, h, List.isEmpty_iff.mp h]
    · have h2 : joinedReports db ≠ [] := by
        intro he
        rw [List.isEmpty_iff] at h
        exact h he
      simp [global_avg, h, h2]
  · intro q hq
    by_cases h : (joinedReports db).isEmpty
    · simp [global_avg, h] at hq
    · simp only [global_avg, h, Bool.false_eq_true, if_false] at hq
      have h2 : joinedReports db ≠ [] := by
        intro he
        rw [List.isEmpty_iff] at h
        exact h he
      have hlen : ((joinedReports db).length : ℚ) ≠ 0 := by
        have h3 := List.length_pos.mpr h2
        exact_mod_cast Nat.pos_iff_ne_zero.mp h3
      rw [Option.some.injEq] at hq
      rw [← hq]
      exact div_mul_cancel₀ _ hlen

/-- Witness for C5: the three seeded reports have scores 2, 5, 4 and a
global average of `11/3`; the empty database produces no average. -/
theorem C5_witness :
    global_avg (seed_example_reports emptyDB) = some ((11 : ℚ) / 3) ∧
      ((11 : ℚ) / 3) * ((joinedReports (seed_example_reports emptyDB)).length : ℚ) =
        ((joinedReports (seed_example_reports emptyDB)).map
          fun rl => (rl.1.safety_score : ℚ)).sum ∧
      global_avg emptyDB = none := by
  have hj : joinedReports (seed_example_reports emptyDB) =
      [(⟨1, 1, 2, "Felt uneasy walking at night",
          "Lots of catcalling around 10–11pm. Stick to main streets.",
          "harassment,night_transit", some "K.A."⟩,
        ⟨1, "Spain", "Barcelona", some "El Raval"⟩),
       (⟨2, 2, 5, "Extremely safe even late at night",
          "Walked home alone at 1am, zero issues. Very well lit.",
          "night_transit,other", some "S.M."⟩,
        ⟨2, "Japan", "Tokyo", some "Shinjuku"⟩),
       (⟨3, 3, 4, "Generally safe but watch for scams",
          "Felt fine walking daytime. Some taxi scams reported.",
          "scams,other", some "L.T."⟩,
        ⟨3, "Mexico", "Mexico City", some "Condesa"⟩)] := by decide
  have havg : global_avg (seed_example_reports emptyDB) = some ((11 : ℚ) / 3) := by
    simp only [global_avg, hj]
    norm_num
  exact ⟨havg, (C5_global_avg_mean _).2 _ havg, (C5_global_avg_mean emptyDB).1.mpr rfl⟩

theorem countOf_bumpTag (counts : List (String × Nat)) (s t : String) :
    countOf (bumpTag counts s) t = countOf counts t + if s = t then 1 else 0 := by
  induction counts with
  | nil => simp only [bumpTag, countOf]; omega
  | cons kv rest ih =>
    obtain ⟨k, v⟩ := kv
    by_cases hk : k = s
    · subst hk
      simp only [bumpTag, if_pos rfl, countOf]
      by_cases ht : k = t <;> simp [ht]
    · simp only [bumpTag, if_neg hk, countOf]
      by_cases ht : k = t
      · subst ht
        have hst : ¬s = k := fun h2 => hk h2.symm
        simp [hst]
      · simp [ht, ih]

theorem countOf_foldl_bumpTag (ts : List String) (counts : List (String × Nat))
    (t : String) :
    countOf (ts.foldl bumpTag counts) t = countOf counts t + ts.count t := by
  induction ts generalizing counts with
  | nil => simp
  | cons s ts ih =>
    rw [List.foldl_cons, ih, countOf_bumpTag, List.count_cons]
    by_cases h : s = t
    · simp [h]
      omega
    · simp [h]

theorem countOf_tag_fold (rs : List (SafetyReport × Location))
    (counts : List (String × Nat)) (t : String) :
    countOf (rs.foldl (fun c rl => (reportTags rl.1.tags).foldl bumpTag c) counts) t =
      countOf counts t + (rs.map fun rl => (reportTags rl.1.tags).count t).sum := by
  induction rs generalizing counts with
  | nil => simp
  | cons rl rs ih =>
    rw [List.foldl_cons, ih, countOf_foldl_bumpTag, List.map_cons, List.sum_cons]
    omega

/-- C6: the tag histogram counts one increment per occurrence of each
tag across all reports — for every database and tag, the stored count
equals the total number of occurrences of that tag among the reports'
split-and-stripped tag lists — and on two reports tagged
`harassment,night_transit` and `harassment` it yields exactly
`{harassment: 2, night_transit: 1}`. -/
theorem C6_tag_counts_per_occurrence :
    (∀ (db : DB) (t : String),
        countOf (tag_counts db) t =
          ((joinedReports db).map fun rl => (reportTags rl.1.tags).count t).sum) ∧
      tag_counts tagToyDB = [("harassment", 2), ("night_transit", 1)] := by
  constructor
  · intro db t
    have h := countOf_tag_fold (joinedReports db) [] t
    simpa [tag_counts, countOf] using h
  · decide

theorem reports_get_or_create_location (db : DB) (c ci : String)
    (nb : Option String) :
    (get_or_create_location db c ci nb).2.reports = db.reports := by
  simp only [get_or_create_location]
  split <;> rfl

theorem score_mem_seed (db : DB) (r : SafetyReport)
    (hr : r ∈ (seed_example_reports db).reports) :
    r ∈ db.reports ∨ r.safety_score = 2 ∨ r.safety_score = 5 ∨ r.safety_score = 4 := by
  unfold seed_example_reports at hr
  by_cases h : db.reports.length > 0
  · rw [if_pos h] at hr
    exact Or.inl hr
  · rw [if_neg h] at hr
    simp only [addReportRow, reports_get_or_create_location, List.mem_append,
      List.mem_singleton] at hr
    rcases hr with ((hr | hr) | hr) | hr
    · exact Or.inl hr
    · subst hr; simp
    · subst hr; simp
    · subst hr; simp

theorem score_mem_submit (db : DB) (c ci : String) (nb : Option String)
    (score : Int) (t b tg : String) (ini : Option String) (r : SafetyReport)
    (hr : r ∈ (submit_report db c ci nb score t b tg ini).reports) :
    r ∈ db.reports ∨ r.safety_score = score := by
  unfold submit_report at hr
  simp only [addReportRow, reports_get_or_create_location, List.mem_append,
    List.mem_singleton] at hr
  rcases hr with hr | hr
  · exact Or.inl hr
  · subst hr; right; rfl

/-- C8: in every reachable database state — built by the seeding
routine and by add-report submissions whose score comes from the 1–5
bounded form control (the add-report tab itself lies beyond the end of
the available source and is modelled from the spec's §6 input
contract) — every persisted report's `safety_score` lies in `1..5`. -/
theorem C8_persisted_scores_in_range (db : DB) (h : Reachable db) :
    ∀ r ∈ db.reports, 1 ≤ r.safety_score ∧ r.safety_score ≤ 5 := by
  induction h with
  | refl => intro r hr; simp [emptyDB] at hr
  | tail hab step ih =>
    cases step with
    | seed =>
      intro r hr
      rcases score_mem_seed _ _ hr with h1 | h2 | h2 | h2
      · exact ih r h1
      · rw [h2]; omega
      · rw [h2]; omega
      · rw [h2]; omega
    | submit c ci nb score t b tg ini hs =>
      intro r hr
      rcases score_mem_submit _ _ _ _ _ _ _ _ _ _ hr with h1 | h2
      · exact ih r h1
      · rw [h2]; omega

/-- Witness for C8: the database seeded from empty is reachable, and
all its reports' scores lie in `1..5`. -/
theorem C8_witness :
    Reachable (seed_example_reports emptyDB) ∧
      ∀ r ∈ (seed_example_reports emptyDB).reports,
        1 ≤ r.safety_score ∧ r.safety_score ≤ 5 :=
  have h : Reachable (seed_example_reports emptyDB) :=
    Relation.ReflTransGen.single (Step.seed emptyDB)
  ⟨h, C8_persisted_scores_in_range _ h⟩

/-! ## SQL LIKE vs. substring containment (for C10) -/

theorem likeMatch_pct_any (ts : List Char) : likeMatch ['%'] ts = true := by
  simp only [likeMatch, if_pos]
  rw [List.any_eq_true]
  exact ⟨[], (List.mem_tails _ _).mpr List.nil_suffix, rfl⟩

theorem likeMatch_plain_pct (p : List Char) (hp : ∀ c ∈ p, c ≠ '%' ∧ c ≠ '_') :
    ∀ ts, likeMatch (p ++ ['%']) ts = true ↔ p <+: ts := by
  induction p with
  | nil =>
    intro ts
    simp [likeMatch_pct_any, List.nil_prefix]
  | cons c p ih =>
    intro ts
    have hc := hp c (List.mem_cons_self c p)
    have hp' : ∀ x ∈ p, x ≠ '%' ∧ x ≠ '_' := fun x hx => hp x (List.mem_cons_of_mem c hx)
    cases ts with
    | nil => simp [likeMatch, hc.1]
    | cons t ts =>
      simp only [List.cons_append, likeMatch, if_neg hc.1]
      simp [hc.2, ih hp' ts, List.cons_prefix_cons, beq_iff_eq]

theorem likeMatch_pct_cons (q ts : List Char) :
    likeMatch ('%' :: q) ts = true ↔ ∃ ts', ts' <:+ ts ∧ likeMatch q ts' = true := by
  simp only [likeMatch, if_pos]
  rw [List.any_eq_true]
  constructor
  · rintro ⟨ts', h1, h2⟩
    exact ⟨ts', (List.mem_tails _ _).mp h1, h2⟩
  · rintro ⟨ts', h1, h2⟩
    exact ⟨ts', (List.mem_tails _ _).mpr h1, h2⟩

theorem likeMatch_contains_iff (p ts : List Char)
    (hp : ∀ c ∈ p, c ≠ '%' ∧ c ≠ '_') :
    likeMatch ('%' :: (p ++ ['%'])) ts = true ↔ p <:+: ts := by
  rw [likeMatch_pct_cons]
  constructor
  · rintro ⟨ts', hsuf, hm⟩
    exact List.infix_iff_prefix_suffix.mpr ⟨ts', (likeMatch_plain_pct p hp ts').mp hm, hsuf⟩
  · intro h
    obtain ⟨m, hpre, hsuf⟩ := List.infix_iff_prefix_suffix.mp h
    exact ⟨m, hsuf, (likeMatch_plain_pct p hp m).mpr hpre⟩

theorem pyLowerChar_wild (c : Char) (h1 : c ≠ '%') (h2 : c ≠ '_') :
    pyLowerChar c ≠ '%' ∧ pyLowerChar c ≠ '_' := by
  have ht := toNat_pyLowerChar c
  have h37 : c.toNat ≠ 37 := fun he => h1 (char_eq_of_toNat_eq (by rw [he]; rfl))
  have h95 : c.toNat ≠ 95 := fun he => h2 (char_eq_of_toNat_eq (by rw [he]; rfl))
  constructor
  · intro he
    have h3 : (pyLowerChar c).toNat = 37 := by rw [he]; rfl
    rw [ht] at h3
    split_ifs at h3 <;> omega
  · intro he
    have h3 : (pyLowerChar c).toNat = 95 := by rw [he]; rfl
    rw [ht] at h3
    split_ifs at h3 <;> omega

theorem pyLowerList_pattern (n : String) :
    pyLowerList ("%" ++ n ++ "%").data = '%' :: (pyLowerList n.data ++ ['%']) := by
  rw [String.data_append, String.data_append]
  simp only [pyLowerList, List.map_append]
  rfl

theorem noWildcard_lower (n : String) (h : noWildcard n = true) :
    ∀ c ∈ pyLowerList n.data, c ≠ '%' ∧ c ≠ '_' := by
  intro c hc
  rw [pyLowerList, List.mem_map] at hc
  obtain ⟨c0, hc0, rfl⟩ := hc
  rw [noWildcard, List.all_eq_true] at h
  have h0 := h c0 hc0
  simp only [Bool.and_eq_true, Bool.not_eq_eq_eq_not, Bool.not_true, beq_eq_false_iff_ne,
    ne_eq] at h0
  exact pyLowerChar_wild c0 h0.1 h0.2

theorem ilike_pct_eq_containsCI (stored n : String) (h : noWildcard n = true) :
    ilike stored ("%" ++ n ++ "%") = containsCI stored n := by
  rw [ilike, containsCI, pyLowerList_pattern]
  rw [Bool.eq_iff_iff, decide_eq_true_eq]
  exact likeMatch_contains_iff (pyLowerList n.data) (pyLowerList stored.data)
    (noWildcard_lower n h)

theorem locationFilter_eq_substr (c ci n : String) (hn : ¬n = "")
    (hw : noWildcard n = true) (l : Location) :
    locationFilter c ci (some n) l = locationFilterSubstr c ci (some n) l := by
  simp only [locationFilter, locationFilterSubstr, if_neg hn]
  cases hnb : l.neighborhood with
  | none => rfl
  | some stored => simp [ilike_pct_eq_containsCI stored n hw]

/-- C10 (corrected claim): when the normalized requested neighborhood
contains no SQL wildcard character (`%`, `_`), `get_or_create_location`
behaves exactly as the claim states: it returns the first existing row
with equal normalized country and city whose stored neighborhood
contains the normalized requested neighborhood as a case-insensitive
substring, and creates a new row only when no such row exists.  (With a
wildcard in the input, `ilike` is a pattern match rather than substring
containment — see the counterexample.) -/
theorem C10_resolve_substring_policy (db : DB) (country city s t : String)
    (hnorm : (normalize_location country city (some s)).2.2 = some t)
    (hw : noWildcard t = true) :
    get_or_create_location db country city (some s) =
      get_or_create_location_substr db country city (some s) := by
  have hfil : locationFilter (normalize_location country city (some s)).1
      (normalize_location country city (some s)).2.1
      (normalize_location country city (some s)).2.2 =
      locationFilterSubstr (normalize_location country city (some s)).1
        (normalize_location country city (some s)).2.1
        (normalize_location country city (some s)).2.2 := by
    rw [hnorm]
    funext l
    by_cases ht : t = ""
    · subst ht; rfl
    · exact locationFilter_eq_substr _ _ _ ht hw l
  simp only [get_or_create_location, get_or_create_location_substr]
  rw [hfil]

/-- Counterexample for C10 as stated: requesting neighborhood `r_val`
(normalized `R_Val`, containing the SQL wildcard `_`) against a stored
neighborhood `Raval` resolves to the existing row and creates nothing,
even though no stored neighborhood contains `R_Val` as a
case-insensitive substring — `ilike` treats `_` as "any one
character", not literally. -/
theorem C10_wildcard_counterexample :
    (normalize_location "Spain" "Barcelona" (some "r_val")).2.2 = some "R_Val" ∧
      containsCI "Raval" "R_Val" = false ∧
      (get_or_create_location ⟨[⟨1, "Spain", "Barcelona", some "Raval"⟩], []⟩
          "Spain" "Barcelona" (some "r_val")).1 =
        ⟨1, "Spain", "Barcelona", some "Raval"⟩ ∧
      (get_or_create_location ⟨[⟨1, "Spain", "Barcelona", some "Raval"⟩], []⟩
          "Spain" "Barcelona" (some "r_val")).2.locations.length = 1 := by
  refine ⟨by decide, by decide, by decide, by decide⟩

/-- Witness for the corrected C10 at a concrete wildcard-free input:
requesting ` raval ` (normalized `Raval`) against a stored `El Raval`
matches by case-insensitive substring containment on both the code path
and the specification's policy. -/
theorem C10_witness :
    (normalize_location "Spain" "Barcelona" (some " raval ")).2.2 = some "Raval" ∧
      noWildcard "Raval" = true ∧
      get_or_create_location ⟨[⟨1, "Spain", "Barcelona", some "El Raval"⟩], []⟩
          "Spain" "Barcelona" (some " raval ") =
        get_or_create_location_substr ⟨[⟨1, "Spain", "Barcelona", some "El Raval"⟩], []⟩
          "Spain" "Barcelona" (some " raval ") :=
  ⟨by decide, by decide,
    C10_resolve_substring_policy _ "Spain" "Barcelona" " raval " "Raval"
      (by decide) (by decide)⟩

/-! ## Risk ranking lemmas (for C4) -/

theorem groupVal_appendScore_same (acc : List (String × List Int)) (lab : String)
    (s : Int) :
    groupVal (appendScore acc lab s) lab = groupVal acc lab ++ [s] := by
  induction acc with
  | nil => simp [appendScore, groupVal]
  | cons kv rest ih =>
    obtain ⟨k, v⟩ := kv
    by_cases hk : k = lab
    · subst hk
      simp [appendScore, groupVal]
    · simp [appendScore, groupVal, hk, ih]

theorem groupVal_appendScore_other (acc : List (String × List Int))
    (lab lab' : String) (s : Int) (h : lab' ≠ lab) :
    groupVal (appendScore acc lab s) lab' = groupVal acc lab' := by
  induction acc with
  | nil =>
    have hne : ¬lab = lab' := fun he => h he.symm
    simp [appendScore, groupVal, hne]
  | cons kv rest ih =>
    obtain ⟨k, v⟩ := kv
    by_cases hk : k = lab
    · subst hk
      have hk' : ¬k = lab' := fun he => h he.symm
      simp [appendScore, groupVal, hk']
    · by_cases hk' : k = lab'
      · subst hk'
        simp [appendScore, groupVal, hk]
      · simp [appendScore, groupVal, hk, hk', ih]

theorem fst_mem_appendScore (acc : List (String × List Int)) (lab lab' : String)
    (s : Int) :
    lab' ∈ (appendScore acc lab s).map Prod.fst ↔
      lab' ∈ acc.map Prod.fst ∨ lab' = lab := by
  induction acc with
  | nil => simp [appendScore]
  | cons kv rest ih =>
    obtain ⟨k, v⟩ := kv
    by_cases hk : k = lab
    · subst hk
      simp [appendScore]
      tauto
    · simp [appendScore, hk, ih]
      tauto

theorem nodup_keys_appendScore (acc : List (String × List Int)) (lab : String)
    (s : Int) (h : (acc.map Prod.fst).Nodup) :
    ((appendScore acc lab s).map Prod.fst).Nodup := by
  induction acc with
  | nil => simp [appendScore]
  | cons kv rest ih =>
    obtain ⟨k, v⟩ := kv
    rw [List.map_cons, List.nodup_cons] at h
    by_cases hk : k = lab
    · subst hk
      simpa [appendScore, List.nodup_cons] using h
    · rw [appendScore, if_neg hk, List.map_cons, List.nodup_cons]
      refine ⟨?_, ih h.2⟩
      rw [fst_mem_appendScore]
      rintro (hm | hm)
      · exact h.1 hm
      · exact hk hm

theorem mem_assoc_groupVal (acc : List (String × List Int))
    (h : (acc.map Prod.fst).Nodup) (kv : String × List Int) (hm : kv ∈ acc) :
    groupVal acc kv.1 = kv.2 := by
  induction acc with
  | nil => cases hm
  | cons kv' rest ih =>
    obtain ⟨k, v⟩ := kv'
    rw [List.map_cons, List.nodup_cons] at h
    rcases List.mem_cons.mp hm with hm | hm
    · subst hm
      simp [groupVal]
    · have hk : ¬k = kv.1 := by
        intro he
        apply h.1
        rw [he]
        exact List.mem_map.mpr ⟨kv, hm, rfl⟩
      simp [groupVal, hk, ih h.2 hm]

theorem groupVal_loc_scores_fold (rs : List (SafetyReport × Location)) :
    ∀ (acc : List (String × List Int)) (lab : String),
      groupVal
          (rs.foldl
            (fun a rl => appendScore a (rl.2.city ++ ", " ++ rl.2.country)
              rl.1.safety_score)
            acc)
          lab =
        groupVal acc lab ++
          ((rs.filter fun rl => reportLabel rl == lab).map fun rl => rl.1.safety_score) := by
  induction rs with
  | nil => simp
  | cons rl rs ih =>
    intro acc lab
    rw [List.foldl_cons, ih]
    by_cases h : reportLabel rl = lab
    · rw [show rl.2.city ++ ", " ++ rl.2.country = lab from h]
      rw [groupVal_appendScore_same, List.filter_cons]
      simp [h]
    · have h2 : lab ≠ rl.2.city ++ ", " ++ rl.2.country := fun he => h he.symm
      rw [groupVal_appendScore_other _ _ _ _ h2, List.filter_cons]
      simp [reportLabel, h, show ¬(rl.2.city ++ ", " ++ rl.2.country = lab) from h]

theorem groupVal_loc_scores (rs : List (SafetyReport × Location)) (lab : String) :
    groupVal (loc_scores rs) lab =
      (rs.filter fun rl => reportLabel rl == lab).map fun rl => rl.1.safety_score := by
  have h := groupVal_loc_scores_fold rs [] lab
  simpa [loc_scores, groupVal] using h

theorem nodup_keys_loc_scores_fold (rs : List (SafetyReport × Location)) :
    ∀ acc : List (String × List Int), (acc.map Prod.fst).Nodup →
      ((rs.foldl
          (fun a rl => appendScore a (rl.2.city ++ ", " ++ rl.2.country)
            rl.1.safety_score)
          acc).map Prod.fst).Nodup := by
  induction rs with
  | nil => intro acc h; simpa using h
  | cons rl rs ih =>
    intro acc h
    rw [List.foldl_cons]
    exact ih _ (nodup_keys_appendScore _ _ _ h)

theorem nodup_keys_loc_scores (rs : List (SafetyReport × Location)) :
    ((loc_scores rs).map Prod.fst).Nodup :=
  nodup_keys_loc_scores_fold rs [] (by simp)

theorem mem_keys_loc_scores_fold (rs : List (SafetyReport × Location)) :
    ∀ (acc : List (String × List Int)) (lab : String),
      lab ∈ ((rs.foldl
          (fun a rl => appendScore a (rl.2.city ++ ", " ++ rl.2.country)
            rl.1.safety_score)
          acc)).map Prod.fst ↔
        lab ∈ acc.map Prod.fst ∨ lab ∈ rs.map reportLabel := by
  induction rs with
  | nil => simp
  | cons rl rs ih =>
    intro acc lab
    rw [List.foldl_cons, ih, fst_mem_appendScore, List.map_cons, List.mem_cons]
    rw [reportLabel]
    tauto

theorem mem_keys_loc_scores (rs : List (SafetyReport × Location)) (lab : String) :
    lab ∈ (loc_scores rs).map Prod.fst ↔ lab ∈ rs.map reportLabel := by
  have h := mem_keys_loc_scores_fold rs [] lab
  simpa [loc_scores] using h

theorem pair_sublist_of_mem {α : Type} {x y : α} {l : List α}
    (hx : x ∈ l) (hy : y ∈ l) (hne : x ≠ y) :
    [x, y].Sublist l ∨ [y, x].Sublist l := by
  induction l with
  | nil => cases hx
  | cons c l ih =>
    rcases List.mem_cons.mp hx with hxc | hxl
    · subst hxc
      have hyl : y ∈ l := by
        rcases List.mem_cons.mp hy with hyc | hyl
        · exact absurd hyc.symm hne
        · exact hyl
      exact Or.inl (List.Sublist.cons₂ x (List.singleton_sublist.mpr hyl))
    · rcases List.mem_cons.mp hy with hyc | hyl
      · subst hyc
        exact Or.inr (List.Sublist.cons₂ y (List.singleton_sublist.mpr hxl))
      · exact (ih hxl hyl).imp (List.Sublist.cons c) (List.Sublist.cons c)

theorem pair_sublist_antisymm {α : Type} {x y : α} {l : List α} (hl : l.Nodup)
    (h1 : [x, y].Sublist l) (h2 : [y, x].Sublist l) : x = y := by
  induction l with
  | nil => cases h1
  | cons c l ih =>
    rw [List.nodup_cons] at hl
    cases h1 with
    | cons _ h1' =>
      cases h2 with
      | cons _ h2' => exact ih hl.2 h1' h2'
      | cons₂ h2' => exact absurd (h1'.subset (by simp)) hl.1
    | cons₂ h1' =>
      cases h2 with
      | cons _ h2' => exact absurd (h2'.subset (by simp)) hl.1
      | cons₂ h2' => rfl

/-- In a merge-sorted list, every element kept by `take n` is `le`-below
every element of the original list that `take n` leaves out. -/
theorem take_le_of_pairwise {α : Type} {le : α → α → Bool} {l : List α} (n : Nat)
    (h : List.Pairwise (fun a b => le a b = true) (l.mergeSort le))
    {x y : α} (hx : x ∈ (l.mergeSort le).take n) (hy : y ∈ l)
    (hyn : y ∉ (l.mergeSort le).take n) : le x y = true := by
  rw [← List.take_append_drop n (l.mergeSort le)] at h
  obtain ⟨-, -, hcross⟩ := List.pairwise_append.mp h
  have hys : y ∈ l.mergeSort le := (List.mergeSort_perm l le).mem_iff.mpr hy
  have hyd : y ∈ (l.mergeSort le).drop n := by
    rcases List.mem_append.mp
        (by rw [List.take_append_drop n (l.mergeSort le)]; exact hys) with h2 | h2
    · exact absurd h2 hyn
    · exact h2
  exact hcross x hx y hyd

theorem loc_scores_tieDB :
    loc_scores (joinedReports tieDB) =
      [("Zurich, Switzerland", [3]), ("Amsterdam, Netherlands", [3])] := by decide

theorem meanScore_single : meanScore [3] = 3 := by
  norm_num [meanScore]

theorem grouped_means_tieDB :
    ((loc_scores (joinedReports tieDB)).map fun kv => (kv.1, meanScore kv.2)) =
      [("Zurich, Switzerland", (3 : ℚ)), ("Amsterdam, Netherlands", (3 : ℚ))] := by
  rw [loc_scores_tieDB]
  simp [meanScore_single]

theorem risk_ranking_tieDB_eval :
    risk_ranking tieDB =
      [("Zurich, Switzerland", (3 : ℚ)), ("Amsterdam, Netherlands", (3 : ℚ))] := by
  unfold risk_ranking
  rw [grouped_means_tieDB, List.mergeSort_of_sorted]
  · rfl
  · exact List.Pairwise.cons (by intro b hb; simp at hb; simp [hb]) (by simp)

theorem meanScore_singleton (k : Int) : meanScore [k] = (k : ℚ) := by
  simp [meanScore]

theorem loc_scores_sixDB :
    loc_scores (joinedReports sixDB) =
      [("A, X", [1]), ("B, X", [2]), ("C, X", [3]), ("D, X", [4]),
        ("E, X", [5]), ("F, X", [5])] := by decide

theorem grouped_means_sixDB :
    ((loc_scores (joinedReports sixDB)).map fun kv => (kv.1, meanScore kv.2)) =
      [("A, X", (1 : ℚ)), ("B, X", 2), ("C, X", 3), ("D, X", 4),
        ("E, X", 5), ("F, X", 5)] := by
  rw [loc_scores_sixDB]
  norm_num [meanScore_singleton]

theorem risk_ranking_sixDB_eval :
    risk_ranking sixDB =
      [("A, X", (1 : ℚ)), ("B, X", 2), ("C, X", 3), ("D, X", 4), ("E, X", 5)] := by
  unfold risk_ranking
  rw [grouped_means_sixDB, List.mergeSort_of_sorted]
  · rfl
  · decide

theorem risk_ranking_lexical_tieDB_eval :
    risk_ranking_lexical tieDB =
      [("Amsterdam, Netherlands", (3 : ℚ)), ("Zurich, Switzerland", (3 : ℚ))] := by
  unfold risk_ranking_lexical
  rw [grouped_means_tieDB]
  simp only [List.foldr_cons, List.foldr_nil, insertRanked]
  rw [if_neg (by decide)]
  rfl

/-- C4 (corrected claim): `risk_ranking` groups reports by the
`"City, Country"` label (collapsing neighborhoods), computes the mean
score of each group, sorts ascending by mean, and returns at most the
first 5 entries — but ties between equal means keep the first-appearance
order of the labels in the report scan (Python's stable sort, keyed on
the mean only), not lexical label order.  Conjuncts: the output length
is `min 5 (number of distinct labels)`; the output is sorted ascending
by mean; every entry carries a label of the scanned reports together
with the exact mean of that label's scores; any two output entries in
tie (equal means) appear in the same order as in the grouped list,
i.e. first-appearance order; and every grouped entry *not* returned has
mean at least every returned entry's mean — so the returned entries are
the lowest-mean (riskiest) groups, i.e. the *first* 5 of the ascending
order, not some other sorted selection. -/
theorem C4_risk_ranking_grouped_sorted_stable (db : DB) :
    ((risk_ranking db).length =
        min 5 ((joinedReports db).map reportLabel).toFinset.card) ∧
      List.Pairwise (fun a b : String × ℚ => a.2 ≤ b.2) (risk_ranking db) ∧
      (∀ x ∈ risk_ranking db,
        x.1 ∈ (joinedReports db).map reportLabel ∧
          x.2 = meanScore
            (((joinedReports db).filter fun rl => reportLabel rl == x.1).map
              fun rl => rl.1.safety_score)) ∧
      (∀ a b : String × ℚ,
        [a, b].Sublist (risk_ranking db) → b.2 ≤ a.2 →
          [a, b].Sublist
            ((loc_scores (joinedReports db)).map fun kv => (kv.1, meanScore kv.2))) ∧
      (∀ x ∈ risk_ranking db,
        ∀ y ∈ ((loc_scores (joinedReports db)).map fun kv => (kv.1, meanScore kv.2)),
          y ∉ risk_ranking db → x.2 ≤ y.2) := by
  have htrans : ∀ a b c : String × ℚ, (decide (a.2 ≤ b.2)) = true →
      (decide (b.2 ≤ c.2)) = true → (decide (a.2 ≤ c.2)) = true := by
    intro a b c hab hbc
    rw [decide_eq_true_eq] at hab hbc ⊢
    exact le_trans hab hbc
  have htotal : ∀ a b : String × ℚ,
      ((decide (a.2 ≤ b.2)) || (decide (b.2 ≤ a.2))) = true := by
    intro a b
    rw [Bool.or_eq_true, decide_eq_true_eq, decide_eq_true_eq]
    exact le_total _ _
  refine ⟨?_, ?_, ?_, ?_, ?_⟩
  · unfold risk_ranking
    rw [List.length_take, List.length_mergeSort, List.length_map]
    congr 1
    rw [show (loc_scores (joinedReports db)).length =
        ((loc_scores (joinedReports db)).map Prod.fst).length from
      (List.length_map _ _).symm]
    rw [← List.toFinset_card_of_nodup (nodup_keys_loc_scores (joinedReports db))]
    congr 1
    apply Finset.ext
    intro lab
    simp only [List.mem_toFinset]
    exact mem_keys_loc_scores (joinedReports db) lab
  · unfold risk_ranking
    have hpair := List.sorted_mergeSort htrans htotal
      ((loc_scores (joinedReports db)).map fun kv => (kv.1, meanScore kv.2))
    have hpair2 := hpair.sublist (List.take_sublist 5 _)
    exact hpair2.imp (fun h => of_decide_eq_true h)
  · intro x hx
    unfold risk_ranking at hx
    have hx1 := (List.take_sublist 5 _).subset hx
    have hx2 := (List.mergeSort_perm _ _).mem_iff.mp hx1
    obtain ⟨kv, hkv, hxeq⟩ := List.mem_map.mp hx2
    have h2 := mem_assoc_groupVal (loc_scores (joinedReports db))
      (nodup_keys_loc_scores (joinedReports db)) kv hkv
    rw [groupVal_loc_scores] at h2
    subst hxeq
    constructor
    · rw [← mem_keys_loc_scores]
      exact List.mem_map.mpr ⟨kv, hkv, rfl⟩
    · show meanScore kv.2 = _
      rw [h2]
  · intro a b hab hba
    unfold risk_ranking at hab
    have hsub1 : [a, b].Sublist
        (((loc_scores (joinedReports db)).map
            fun kv => (kv.1, meanScore kv.2)).mergeSort
          fun x y => x.2 ≤ y.2) :=
      hab.trans (List.take_sublist 5 _)
    have hkeys : ((loc_scores (joinedReports db)).map
          fun kv => (kv.1, meanScore kv.2)).map Prod.fst =
        (loc_scores (joinedReports db)).map Prod.fst := by
      rw [List.map_map]
      rfl
    have hnd_gm : ((loc_scores (joinedReports db)).map
        fun kv => (kv.1, meanScore kv.2)).Nodup := by
      apply List.Nodup.of_map Prod.fst
      rw [hkeys]
      exact nodup_keys_loc_scores (joinedReports db)
    have hnd_sorted := ((List.mergeSort_perm
      ((loc_scores (joinedReports db)).map fun kv => (kv.1, meanScore kv.2))
      (fun x y => x.2 ≤ y.2)).nodup_iff).mpr hnd_gm
    have hne : a ≠ b := by
      intro he
      subst he
      have hnd_pair := List.Nodup.sublist hsub1 hnd_sorted
      simp at hnd_pair
    have ha : a ∈ (loc_scores (joinedReports db)).map
        fun kv => (kv.1, meanScore kv.2) :=
      (List.mergeSort_perm _ _).mem_iff.mp (hsub1.subset (by simp))
    have hb : b ∈ (loc_scores (joinedReports db)).map
        fun kv => (kv.1, meanScore kv.2) :=
      (List.mergeSort_perm _ _).mem_iff.mp (hsub1.subset (by simp))
    rcases pair_sublist_of_mem ha hb hne with h | h
    · exact h
    · exfalso
      have hpw : List.Pairwise (fun x y : String × ℚ => (decide (x.2 ≤ y.2)) = true)
          [b, a] := by
        constructor
        · intro y hy
          simp at hy
          subst hy
          exact decide_eq_true hba
        · simp
      have h2 := List.sublist_mergeSort htrans htotal hpw h
      exact hne (pair_sublist_antisymm hnd_sorted hsub1 h2)
  · intro x hx y hy hyn
    unfold risk_ranking at hx hyn
    exact of_decide_eq_true
      (take_le_of_pairwise 5 (List.sorted_mergeSort htrans htotal _) hx hy hyn)

/-- Counterexample for C4 as stated: two locations with equal mean 3,
first reported at `Zurich, Switzerland` and then at
`Amsterdam, Netherlands`, come out of the code in scan order —
Zurich first — while lexical tie-breaking (what the claim asserts)
would put Amsterdam first. -/
theorem C4_tie_not_lexical :
    risk_ranking tieDB ≠ risk_ranking_lexical tieDB := by
  rw [risk_ranking_tieDB_eval, risk_ranking_lexical_tieDB_eval]
  intro he
  have h3 := congrArg (fun l => (l.map Prod.fst).head?) he
  simp at h3

/-- Witness for the corrected C4 at concrete databases: on the tied
database the two equal-mean entries appear in the output in
first-appearance order and the stability conjunct applies to them; on
the six-group database the cut-off group `(F, X)` (mean 5) is proved,
via the minimality conjunct, to have mean at least that of the returned
lowest entry `(A, X)` (mean 1). -/
theorem C4_witness :
    ([("Zurich, Switzerland", (3 : ℚ)), ("Amsterdam, Netherlands", (3 : ℚ))].Sublist
        (risk_ranking tieDB)) ∧
      ((3 : ℚ) ≤ (3 : ℚ)) ∧
      ([("Zurich, Switzerland", (3 : ℚ)), ("Amsterdam, Netherlands", (3 : ℚ))].Sublist
        ((loc_scores (joinedReports tieDB)).map fun kv => (kv.1, meanScore kv.2))) ∧
      (("A, X", (1 : ℚ)) ∈ risk_ranking sixDB) ∧
      (("F, X", (5 : ℚ)) ∈
        ((loc_scores (joinedReports sixDB)).map fun kv => (kv.1, meanScore kv.2))) ∧
      (("F, X", (5 : ℚ)) ∉ risk_ranking sixDB) ∧
      ((1 : ℚ) ≤ (5 : ℚ)) := by
  have hsub : [("Zurich, Switzerland", (3 : ℚ)),
      ("Amsterdam, Netherlands", (3 : ℚ))].Sublist (risk_ranking tieDB) := by
    rw [risk_ranking_tieDB_eval]
  have hxin : ("A, X", (1 : ℚ)) ∈ risk_ranking sixDB := by
    rw [risk_ranking_sixDB_eval]
    decide
  have hyin : ("F, X", (5 : ℚ)) ∈
      ((loc_scores (joinedReports sixDB)).map fun kv => (kv.1, meanScore kv.2)) := by
    rw [grouped_means_sixDB]
    decide
  have hyout : ("F, X", (5 : ℚ)) ∉ risk_ranking sixDB := by
    rw [risk_ranking_sixDB_eval]
    decide
  exact ⟨hsub, le_refl _,
    (C4_risk_ranking_grouped_sorted_stable tieDB).2.2.2.1 _ _ hsub (le_refl _),
    hxin, hyin, hyout,
    (C4_risk_ranking_grouped_sorted_stable sixDB).2.2.2.2 _ hxin _ hyin hyout⟩

end SoloSafe
